import Mathlib

/-!
# Verification of the pc-part-dataset scraper

A shallow embedding of the two near-duplicate scraper source files
(`src/Motherboard/src/scraper.ts` and the unnamed sibling file) and proofs of
the specification's claims about them.

The repository contains two TypeScript files that differ only in

* the module-level `cpuSockets` variant table (RAM generations with `#mt=`
  fragments in the Motherboard file; CPU sockets with `#k=` fragments in the
  unnamed file), and
* the URL used to re-navigate when `currentPage > 1` (the Motherboard file
  appends `&page=N` to the variant's filtered URL; the unnamed file navigates
  to `…/#page=N`, dropping the variant fragment).

Everything else — the `scrape` async generator, the record extraction of
`name`, `price` and the mapped spec fields, and the `scrapeInParallel`
orchestrator whose per-category task drains the generator inside a
`try`/`catch` and always writes the accumulated parts — is textually
identical, so it is embedded once, parameterised by a `ScraperConfig`
carrying the two points of difference.

Effectful collaborators are made explicit:

* the browser/DOM (`page.goto`, `page.$$`, `$eval`, …) becomes a `Site`
  value mapping a URL to the pagination count and the listing items rendered
  there;
* thrown exceptions become `Except ScrapeError`;
* the serializers module (`./serializers`, not part of the two source files)
  becomes a `Registry` of abstract serializer functions, except for
  `serializeNumber`, which is modelled concretely from the spec because the
  `price` claims depend on its value.
-/

deriving instance DecidableEq for Except

namespace Scraper

/-- A typed field value, as produced by the serializers
(`null` is represented one level up, as `Option Value`). -/
inductive Value where
  | str (s : String)
  | num (q : ℚ)
  | bool (b : Bool)
  | list (vs : List String)
  deriving DecidableEq

/-- The fatal conditions a category traversal can raise.  In the TypeScript
source these are thrown exceptions: the explicit
`throw new Error("No mapping found …")` for an unmapped label, `TypeError`s
from the non-null assertions on `map[endpoint]` and
`customSerializers[endpoint]![name]!`, serializer parse failures, and the
`waitForSelector('.pagination', {timeout: 5000})` timeout. -/
inductive ScrapeError where
  | unmappedLabel (label : String)
  | malformedValue (raw : String)
  | unregisteredCustomSerializer (endpoint field : String)
  | missingEndpointTable (endpoint : String)
  | paginationUnreadable (url : String)
  deriving DecidableEq

/-- One `td.td__spec` cell of a listing row: the raw `.specLabel` inner text
(before trimming) and the cell's raw inner text value. -/
structure Spec where
  label : String
  value : String
  deriving DecidableEq

/-- One `.tr__product` listing row as rendered by the site: the title text,
the `.td__price` text content (`none` models a `null` `textContent`), and
the spec cells. -/
structure Item where
  title : String
  priceText : Option String
  specs : List Spec
  deriving DecidableEq

/-- A record under construction: the TS code builds a plain object
`serialized` by property assignment, so a record is an association list with
JavaScript's overwrite-in-place semantics (`setField`). -/
def Part : Type := List (String × Option Value)

instance : DecidableEq Part := by unfold Part; infer_instance

/-- JavaScript property assignment `p[k] = v`: overwrite the existing key in
place, otherwise append the new property. -/
def setField : Part → String → Option Value → Part
  | [], k, v => [(k, v)]
  | (k', v') :: rest, k, v =>
      if k' = k then (k, v) :: rest else (k', v') :: setField rest k v

/-- JavaScript property read `p[k]`: `none` means the property is absent,
`some none` means it is present with value `null`. -/
def getField : Part → String → Option (Option Value)
  | [], _ => none
  | (k', v) :: rest, k => if k' = k then some v else getField rest k

/-- Exact-key association-list lookup, the semantics of a JavaScript object
dictionary access `table[key]` (string keys compare by exact, case-sensitive
equality). -/
def lookupTable {β : Type} : List (String × β) → String → Option β
  | [], _ => none
  | (k, v) :: rest, key => if k = key then some v else lookupTable rest key

/-- `Object.keys(table).find((key) => table[key] === target)`: the first key
of the table whose value is `target`. -/
def findKeyByValue : List (String × String) → String → Option String
  | [], _ => none
  | (k, v) :: rest, target =>
      if v = target then some k else findKeyByValue rest target

/-- The `serialization-map.json` shape: endpoint → raw spec label →
`[snakeSpecName, serializationType]`. -/
def SMap : Type := List (String × List (String × (String × String)))

/-- `map[endpoint][specName]` with JavaScript dictionary semantics. -/
def lookupMap (m : SMap) (endpoint specName : String) :
    Option (String × String) :=
  match lookupTable m endpoint with
  | none => none
  | some t => lookupTable t specName

/-! ## String primitives

JavaScript's `String.prototype.trim` and the decimal parsing of the numeric
serializer, written as structural recursion over the character list of the
string (so that concrete runs reduce). -/

/-- JavaScript `s.trim()`: remove leading and trailing whitespace. -/
def jsTrim (s : String) : String :=
  ⟨((s.data.dropWhile Char.isWhitespace).reverse.dropWhile
      Char.isWhitespace).reverse⟩

/-- Split a character list at every occurrence of the separator `c`. -/
def splitOnChar (c : Char) : List Char → List (List Char)
  | [] => [[]]
  | x :: xs =>
    let r := splitOnChar c xs
    if x = c then [] :: r
    else
      match r with
      | [] => [[x]]
      | y :: ys => (x :: y) :: ys

/-! ## The numeric serializer, modelled from the spec -/

/-- Modelled from the spec: `serializeNumber` lives in `./serializers`,
which is imported by both source files but is not among them; §4.1 specifies
"strips non-numeric decoration (currency symbols, units) and parses a decimal
number", failing with `MalformedValue` otherwise.  Decoration stripping keeps
digits and the decimal point. -/
def stripNonNumeric (s : String) : List Char :=
  s.data.filter (fun c => c.isDigit || c = '.')

/-- The numeric value of a list of decimal digits; `none` if the list is
empty or contains a non-digit. -/
def digitsToNat : List Char → Option Nat
  | [] => none
  | cs =>
    cs.foldlM
      (fun acc c =>
        if c.isDigit then some (acc * 10 + (c.toNat - '0'.toNat)) else none)
      0

/-- Parse a bare decimal numeral (`"129"` or `"129.99"`) into a rational. -/
def parseDecimal (cs : List Char) : Option ℚ :=
  match splitOnChar '.' cs with
  | [w] => (digitsToNat w).map (fun a => (a : ℚ))
  | [w, f] =>
      match digitsToNat w, digitsToNat f with
      | some a, some b => some (mkRat (a * 10 ^ f.length + b) (10 ^ f.length))
      | _, _ => none
  | _ => none

/-- Modelled from the spec: the generic numeric serializer (§4.1). -/
def serializeNumber (s : String) : Except ScrapeError Value :=
  match parseDecimal (stripNonNumeric s) with
  | some q => .ok (.num q)
  | none => .error (.malformedValue s)

/-! ## The extraction pipeline -/

/-- The serializers module interface (`genericSerialize` and the
`customSerializers` nested dictionary), abstract because the module is not
among the source files; serializers are pure `raw text → value-or-error`
functions per §4.1. -/
structure Registry where
  genericSerialize : String → String → Except ScrapeError Value
  customSerializers : String → String → Option (String → Except ScrapeError Value)

/-- The two points on which the Motherboard file and the unnamed file
differ: the module-level `cpuSockets` table (in declared key order) and the
URL built for `page.goto` when `currentPage > 1`. -/
structure ScraperConfig where
  table : List (String × String)
  pageUrl : String → String → Nat → String

/-- `` `${BASE_URL}/${endpoint}/${socketUrl}` `` -/
def BASE_URL : String := "https://pcpartpicker.com/products"

/-- The variant's first-page URL, `` `${BASE_URL}/${endpoint}/${socketUrl}` ``. -/
def fullUrl (endpoint socketUrl : String) : String :=
  BASE_URL ++ "/" ++ endpoint ++ "/" ++ socketUrl

/-- The site as seen through the automation collaborator: what the
pagination control reads at a URL (`none`: `.pagination` never appears and
`waitForSelector` times out) and which `.tr__product` rows a URL renders. -/
structure Site where
  pagination : String → Option Nat
  items : String → List Item

/-- The body of the inner `for (const spec of specs)` loop, iterated over the
remaining spec cells: trim the label, look it up in `map[endpoint]`, throw on
a missing mapping, then either store `null` for an empty value, dispatch to
the custom serializer, or dispatch to the generic serializer. -/
def extractSpecs (reg : Registry) (m : SMap) (endpoint : String) :
    Part → List Spec → Except ScrapeError Part
  | p, [] => .ok p
  | p, spec :: rest =>
    match lookupTable m endpoint with
    | none => .error (.missingEndpointTable endpoint)
    | some t =>
      match lookupTable t (jsTrim spec.label) with
      | none => .error (.unmappedLabel (jsTrim spec.label))
      | some (snakeSpecName, mappedSpecSerializationType) =>
        if jsTrim spec.value = "" then
          extractSpecs reg m endpoint (setField p snakeSpecName none) rest
        else if mappedSpecSerializationType = "custom" then
          match reg.customSerializers endpoint snakeSpecName with
          | none =>
              .error (.unregisteredCustomSerializer endpoint snakeSpecName)
          | some f =>
            match f spec.value with
            | .error e => .error e
            | .ok v =>
                extractSpecs reg m endpoint
                  (setField p snakeSpecName (some v)) rest
        else
          match reg.genericSerialize spec.value mappedSpecSerializationType with
          | .error e => .error e
          | .ok v =>
              extractSpecs reg m endpoint
                (setField p snakeSpecName (some v)) rest

/-- `Object.keys(cpuSockets).find((key) => cpuSockets[key] === socketUrl)`,
with TypeScript's template-literal rendering of an `undefined` find result as
the string `"undefined"`. -/
def socketNameOf (cfg : ScraperConfig) (socketUrl : String) : String :=
  match findKeyByValue cfg.table socketUrl with
  | some k => k
  | none => "undefined"

/-- The body of the `for (const productEl of productEls)` loop for one row:
build `name` from the socket name recovered by value-lookup in `cpuSockets`
and the row title, build `price` from the price text, then fill the spec
fields. -/
def extractItem (cfg : ScraperConfig) (reg : Registry) (m : SMap)
    (endpoint socketUrl : String) (item : Item) : Except ScrapeError Part :=
  let socketName := socketNameOf cfg socketUrl
  let p := setField [] "name" (some (.str (socketName ++ " " ++ item.title)))
  match item.priceText with
  | none => extractSpecs reg m endpoint (setField p "price" none) item.specs
  | some priceText =>
      if jsTrim priceText = "" then
        extractSpecs reg m endpoint (setField p "price" none) item.specs
      else
        match serializeNumber priceText with
        | .error e => .error e
        | .ok v =>
            extractSpecs reg m endpoint (setField p "price" (some v)) item.specs

/-- Extract every row of one listing page in order; the first failure aborts
the page, discarding the partially built `pageProducts` (in the source the
`yield pageProducts` after the loop is never reached when the loop throws). -/
def extractItems (cfg : ScraperConfig) (reg : Registry) (m : SMap)
    (endpoint socketUrl : String) : List Item → Except ScrapeError (List Part)
  | [] => .ok []
  | item :: rest =>
    match extractItem cfg reg m endpoint socketUrl item with
    | .error e => .error e
    | .ok p =>
      match extractItems cfg reg m endpoint socketUrl rest with
      | .error e => .error e
      | .ok ps => .ok (p :: ps)

/-- What one variant's traversal produced before finishing or dying: the
fully yielded page batches in order, the `page.goto` URL trace, and the
fatal condition if one was raised. -/
structure ScrapeResult where
  batches : List (List Part)
  gotos : List String
  err : Option ScrapeError
  deriving DecidableEq

/-- The `for (let currentPage = 1; currentPage <= numPages; currentPage++)`
loop of `scrape`, from page `cur`, with `remaining` the number of loop
iterations still to run (the loop runs while `cur ≤ numPages`, i.e.
`numPages + 1 - cur` more times — see `scrapePages`): re-navigate when
`cur > 1` (page 1 is still displayed from the variant's initial navigation),
extract the page's rows, and yield the batch. -/
def scrapePagesAux (cfg : ScraperConfig) (reg : Registry) (m : SMap)
    (site : Site) (endpoint socketUrl : String) :
    Nat → Nat → ScrapeResult
  | 0, _ => ⟨[], [], none⟩
  | remaining + 1, cur =>
    let url := if 1 < cur then cfg.pageUrl endpoint socketUrl cur
               else fullUrl endpoint socketUrl
    let navs := if 1 < cur then [url] else []
    match extractItems cfg reg m endpoint socketUrl (site.items url) with
    | .error e => ⟨[], navs, some e⟩
    | .ok batch =>
        let r := scrapePagesAux cfg reg m site endpoint socketUrl remaining (cur + 1)
        ⟨batch :: r.batches, navs ++ r.gotos, r.err⟩

/-- The page loop entered at `currentPage = cur` with bound `numPages`. -/
def scrapePages (cfg : ScraperConfig) (reg : Registry) (m : SMap)
    (site : Site) (endpoint socketUrl : String) (numPages : Nat)
    (cur : Nat) : ScrapeResult :=
  scrapePagesAux cfg reg m site endpoint socketUrl (numPages + 1 - cur) cur

/-- The outer `for (const [_, socketUrl] of Object.entries(cpuSockets))`
loop of `scrape`: per variant, navigate to the variant's filtered first page,
read `numPages` from the pagination control (a timeout is fatal), run the
page loop, and stop the whole generator at the first fatal condition. -/
def scrapeVariants (cfg : ScraperConfig) (reg : Registry) (m : SMap)
    (site : Site) (endpoint : String) :
    List (String × String) → ScrapeResult
  | [] => ⟨[], [], none⟩
  | (_, socketUrl) :: rest =>
    let u := fullUrl endpoint socketUrl
    match site.pagination u with
    | none => ⟨[], [u], some (.paginationUnreadable u)⟩
    | some numPages =>
      let r := scrapePages cfg reg m site endpoint socketUrl numPages 1
      match r.err with
      | some e => ⟨r.batches, u :: r.gotos, some e⟩
      | none =>
        let r' := scrapeVariants cfg reg m site endpoint rest
        ⟨r.batches ++ r'.batches, (u :: r.gotos) ++ r'.gotos, r'.err⟩

/-- The `scrape` async generator of either source file, as the sequence of
page batches it yields before terminating or throwing. -/
def scrape (cfg : ScraperConfig) (reg : Registry) (m : SMap) (site : Site)
    (endpoint : String) : ScrapeResult :=
  scrapeVariants cfg reg m site endpoint cfg.table

/-! ## The orchestrator -/

/-- What one `cluster.task` invocation leaves behind for its endpoint: the
JSON file written for the category (`allParts`, the concatenation of the
yielded batches) and, when the traversal aborted, the `console.warn`-logged
cause paired with the endpoint identifier in the message. -/
structure TaskOutput where
  endpoint : String
  parts : List Part
  aborted : Option ScrapeError
  deriving DecidableEq

/-- The body of `cluster.task`: drain `scrape(endpoint, page)` into
`allParts` inside `try`/`catch` — a thrown error is caught, warned about, and
the accumulated `allParts` is still written to
`data-staging/json/{endpoint}.json`. -/
def runTask (cfg : ScraperConfig) (reg : Registry) (m : SMap) (site : Site)
    (endpoint : String) : TaskOutput :=
  let r := scrape cfg reg m site endpoint
  ⟨endpoint, r.batches.flatten, r.err⟩

/-- `scrapeInParallel`: one cluster task per queued endpoint.  The cluster
schedules up to five tasks concurrently, but each task touches only its own
page and its own staging file, so the per-endpoint outputs are independent
of the interleaving and the run is modelled by its per-endpoint results. -/
def scrapeInParallel (cfg : ScraperConfig) (reg : Registry) (m : SMap)
    (site : Site) (endpoints : List String) : List TaskOutput :=
  endpoints.map (runTask cfg reg m site)

/-! ## The two concrete source files -/

namespace Motherboard

/-- The `cpuSockets` table of `src/Motherboard/src/scraper.ts` (RAM
generations), in declared key order. -/
def cpuSockets : List (String × String) :=
  [("DDR2", "#mt=ddr2"), ("DDR3", "#mt=ddr3"),
   ("DDR4", "#mt=ddr4"), ("DDR5", "#mt=ddr5")]

/-- The Motherboard file's `currentPage > 1` navigation target:
`` `${BASE_URL}/${endpoint}/${socketUrl}&page=${currentPage}` `` — the
variant filter fragment is kept and `&page=N` appended. -/
def pageUrl (endpoint socketUrl : String) (currentPage : Nat) : String :=
  BASE_URL ++ "/" ++ endpoint ++ "/" ++ socketUrl ++ "&page=" ++ toString currentPage

/-- The Motherboard scraper. -/
def config : ScraperConfig := ⟨cpuSockets, pageUrl⟩

end Motherboard

namespace Unnamed

/-- The `cpuSockets` table of the unnamed sibling file (CPU sockets), in
declared key order. -/
def cpuSockets : List (String × String) :=
  [("AM1", "#k=27"), ("AM2p", "#k=2"), ("AM3", "#k=3"), ("AM3p", "#k=4"),
   ("AM4", "#k=33"), ("AM5", "#k=41"), ("FM1", "#k=20"), ("FM2", "#k=23"),
   ("FM2p", "#k=26"), ("G34", "#k=31"), ("LGA771", "#k=12"),
   ("LGA775", "#k=13"), ("LGA1150", "#k=24"), ("LGA1151", "#k=30"),
   ("LGA1155", "#k=14"), ("LGA1156", "#k=15"), ("LGA1200", "#k=39"),
   ("LGA1356", "#k=37"), ("LGA1366", "#k=16"), ("LGA1700", "#k=40"),
   ("LGA2011", "#k=21"), ("LGA2011_3", "#k=28"), ("LGA2066", "#k=35"),
   ("sTR4", "#k=36"), ("sTRX4", "#k=38")]

/-- The unnamed file's `currentPage > 1` navigation target:
`` `${BASE_URL}/${endpoint}/#page=${currentPage}` `` — the variant filter
fragment (`socketUrl`) is dropped. -/
def pageUrl (endpoint _socketUrl : String) (currentPage : Nat) : String :=
  BASE_URL ++ "/" ++ endpoint ++ "/#page=" ++ toString currentPage

/-- The unnamed sibling scraper. -/
def config : ScraperConfig := ⟨cpuSockets, pageUrl⟩

end Unnamed

/-- `specsAvoid m endpoint k specs`: no spec cell of the list resolves
through the mapping table to the field name `k` (so processing the specs can
never overwrite the record property `k`). -/
def specsAvoid (m : SMap) (endpoint k : String) : List Spec → Bool
  | [] => true
  | spec :: rest =>
    (match lookupMap m endpoint (jsTrim spec.label) with
     | some d => d.1 != k
     | none => true) && specsAvoid m endpoint k rest

/-- JavaScript's `priceText == null || priceText.trim() === ''` guard:
the raw price text is `null`, empty, or whitespace-only. -/
def priceTextEmpty : Option String → Bool
  | none => true
  | some t => jsTrim t == ""

/-! ## Concrete fixtures

Closed registries, mapping tables and sites on which the pipeline is
evaluated for witnesses and counterexamples. -/

/-- A registry with no custom serializers whose generic serializer always
fails; runs that must not consult any serializer evaluate identically under
it and under `regAll`. -/
def regNone : Registry :=
  ⟨fun s _ => .error (.malformedValue s), fun _ _ => none⟩

/-- A registry that accepts every value, for registry-independence checks. -/
def regAll : Registry :=
  ⟨fun _ _ => .ok (.bool true), fun _ _ => some (fun _ => .ok (.bool true))⟩

/-- A mapping table knowing the `memory` endpoint and no spec labels. -/
def mEmpty : SMap := [("memory", [])]

/-- A mapping table sending the raw label `Foo` to a `custom`-serialized
field `foo` of the `memory` endpoint. -/
def mCustom : SMap := [("memory", [("Foo", ("foo", "custom"))])]

/-- A mapping table sending the raw label `Color` to the text field `color`
of the `memory` endpoint. -/
def mColor : SMap := [("memory", [("Color", ("color", "text"))])]

/-- A mapping table whose only `memory` label is capitalised `Chipset`. -/
def mChipset : SMap := [("memory", [("Chipset", ("chipset", "text"))])]

def itemAlpha : Item := ⟨"Alpha", some "$10", []⟩

def itemBeta : Item := ⟨"Beta", some "$20", []⟩

/-- A row whose price text parses to nothing. -/
def itemGamma : Item := ⟨"Gamma", some "abc", []⟩

def partAlpha : Part :=
  [("name", some (.str "DDR2 Alpha")), ("price", some (.num 10))]

def partBeta : Part :=
  [("name", some (.str "DDR2 Beta")), ("price", some (.num 20))]

/-- One DDR2 page of three rows whose third row has an unparseable price. -/
def siteTrunc : Site :=
  ⟨fun url => if url = fullUrl "memory" "#mt=ddr2" then some 1 else none,
   fun url =>
     if url = fullUrl "memory" "#mt=ddr2" then [itemAlpha, itemBeta, itemGamma]
     else []⟩

/-- A single-variant configuration sharing the Motherboard file's page-URL
rule. -/
def cfgOneVar : ScraperConfig := ⟨[("V", "u")], Motherboard.pageUrl⟩

/-- Category `cpu`: one clean page.  Category `memory`: a clean first page,
and a second page whose only row has an unparseable price. -/
def siteAB : Site :=
  ⟨fun url =>
     if url = fullUrl "cpu" "u" then some 1
     else if url = fullUrl "memory" "u" then some 2
     else none,
   fun url =>
     if url = fullUrl "cpu" "u" then [⟨"A1", none, []⟩]
     else if url = fullUrl "memory" "u" then [⟨"B1", none, []⟩]
     else if url = Motherboard.pageUrl "memory" "u" 2 then
       [⟨"B2", some "x", []⟩]
     else []⟩

def partA1 : Part := [("name", some (.str "V A1")), ("price", none)]

def partB1 : Part := [("name", some (.str "V B1")), ("price", none)]

/-- Two DDR2 pages for `memory`: a clean first page, then a row carrying the
`custom`-mapped label `Foo`. -/
def siteCustom : Site :=
  ⟨fun url => if url = fullUrl "memory" "#mt=ddr2" then some 2 else none,
   fun url =>
     if url = fullUrl "memory" "#mt=ddr2" then [itemAlpha]
     else if url = Motherboard.pageUrl "memory" "#mt=ddr2" 2 then
       [⟨"Beta", some "$20", [⟨"Foo", "bar"⟩]⟩]
     else []⟩

/-- One DDR2 page for `memory` whose row carries the lowercase label
`" chipset "` while the table's key is `Chipset`. -/
def siteChipset : Site :=
  ⟨fun url => if url = fullUrl "memory" "#mt=ddr2" then some 1 else none,
   fun url =>
     if url = fullUrl "memory" "#mt=ddr2" then
       [⟨"Board", some "$10", [⟨" chipset ", "X570"⟩]⟩]
     else []⟩

/-- A two-variant configuration sharing the Motherboard file's page-URL
rule, matching the spec's 2-variants × 2-pages ordering fixture. -/
def cfgTwoVar : ScraperConfig := ⟨[("V1", "u1"), ("V2", "u2")], Motherboard.pageUrl⟩

/-- Every URL shows two pages whose single row is titled by the URL itself,
so each extracted record identifies the page it came from. -/
def siteGrid : Site := ⟨fun _ => some 2, fun url => [⟨url, none, []⟩]⟩

def npTwo : String × String → Nat := fun _ => 2

/-- The batch `siteGrid` yields for variant `v`, page `p`, endpoint
`memory`. -/
def batchGrid : String × String → Nat → List Part := fun v p =>
  [[("name", some (.str (v.1 ++ " " ++
      (if 1 < p then Motherboard.pageUrl "memory" v.2 p
       else fullUrl "memory" v.2)))),
    ("price", none)]]

/-- A site on which every pagination read times out. -/
def siteDead : Site := ⟨fun _ => none, fun _ => []⟩

/-- A site of single-page variants with no rows at all. -/
def siteOnePage : Site := ⟨fun _ => some 1, fun _ => []⟩

def itemBoard : Item := ⟨"Board X", some " ", []⟩

def partBoard : Part := [("name", some (.str "DDR3 Board X")), ("price", none)]

def partAlpha129 : Part :=
  [("name", some (.str "DDR2 Alpha")), ("price", some (.num (mkRat 12999 100)))]

/-! ## Record-field lemmas -/

theorem getField_setField_self : ∀ (p : Part) (k : String) (v : Option Value),
    getField (setField p k v) k = some v := by
  intro p k v
  induction p with
  | nil => simp [setField, getField]
  | cons hd tl ih =>
    obtain ⟨k', v'⟩ := hd
    by_cases h : k' = k
    · subst h
      simp [setField, getField]
    · simp [setField, getField, h, ih]

theorem getField_setField_ne : ∀ (p : Part) (k k' : String) (v : Option Value),
    k ≠ k' → getField (setField p k v) k' = getField p k' := by
  intro p k k' v hne
  induction p with
  | nil => simp [setField, getField, hne]
  | cons hd tl ih =>
    obtain ⟨k'', v''⟩ := hd
    by_cases h : k'' = k
    · subst h
      simp [setField, getField, hne]
    · by_cases h2 : k'' = k'
      · subst h2
        simp [setField, getField, h]
      · simp [setField, getField, h, h2, ih]

/-- A successful JavaScript dictionary lookup returns the value stored under
the byte-for-byte identical key: lookup is exact and case-sensitive. -/
theorem lookupTable_mem {β : Type} :
    ∀ (t : List (String × β)) (key : String) (v : β),
      lookupTable t key = some v → (key, v) ∈ t := by
  intro t key v h
  induction t with
  | nil => simp [lookupTable] at h
  | cons hd tl ih =>
    obtain ⟨k', v'⟩ := hd
    by_cases hk : k' = key
    · subst hk
      simp [lookupTable] at h
      simp [h]
    · simp [lookupTable, hk] at h
      simp [ih h]

/-- A key absent from a JavaScript dictionary (in particular one differing
from every stored key only in letter case) looks up to `undefined`. -/
theorem lookupTable_eq_none {β : Type} :
    ∀ (t : List (String × β)) (key : String),
      (∀ pr ∈ t, pr.1 ≠ key) → lookupTable t key = none := by
  intro t key h
  induction t with
  | nil => simp [lookupTable]
  | cons hd tl ih =>
    obtain ⟨k', v'⟩ := hd
    have hk : k' ≠ key := h (k', v') (by simp)
    simp [lookupTable, hk]
    exact ih (fun pr hpr => h pr (by simp [hpr]))

/-- Spec processing touches only the fields named by the mapping table: a
record property whose name no spec resolves to is left untouched. -/
theorem getField_extractSpecs (reg : Registry) (m : SMap) (endpoint k : String) :
    ∀ (specs : List Spec) (p part : Part),
      extractSpecs reg m endpoint p specs = .ok part →
      specsAvoid m endpoint k specs = true →
      getField part k = getField p k := by
  intro specs
  induction specs with
  | nil =>
    intro p part h _
    simp [extractSpecs] at h
    subst h
    rfl
  | cons spec rest ih =>
    intro p part h havoid
    simp only [extractSpecs] at h
    cases hmt : lookupTable m endpoint with
    | none =>
      simp only [hmt] at h
      exact Except.noConfusion h
    | some t =>
      simp only [hmt] at h
      cases hlt : lookupTable t (jsTrim spec.label) with
      | none =>
        simp only [hlt] at h
        exact Except.noConfusion h
      | some d =>
        obtain ⟨snake, ty⟩ := d
        simp only [hlt] at h
        have hsnake : snake ≠ k := by
          have h' := havoid
          simp only [specsAvoid, lookupMap, hmt, hlt, Bool.and_eq_true,
            bne_iff_ne, ne_eq] at h'
          exact h'.1
        have havoid' : specsAvoid m endpoint k rest = true := by
          have h' := havoid
          simp only [specsAvoid, lookupMap, hmt, hlt, Bool.and_eq_true] at h'
          exact h'.2
        by_cases hempty : jsTrim spec.value = ""
        · rw [if_pos hempty] at h
          rw [ih _ _ h havoid', getField_setField_ne _ _ _ _ hsnake]
        · rw [if_neg hempty] at h
          by_cases hcustom : ty = "custom"
          · rw [if_pos hcustom] at h
            cases hreg : reg.customSerializers endpoint snake with
            | none =>
              simp only [hreg] at h
              exact Except.noConfusion h
            | some f =>
              simp only [hreg] at h
              cases hf : f spec.value with
              | error e =>
                simp only [hf] at h
                exact Except.noConfusion h
              | ok v =>
                simp only [hf] at h
                rw [ih _ _ h havoid', getField_setField_ne _ _ _ _ hsnake]
          · rw [if_neg hcustom] at h
            cases hg : reg.genericSerialize spec.value ty with
            | error e =>
              simp only [hg] at h
              exact Except.noConfusion h
            | ok v =>
              simp only [hg] at h
              rw [ih _ _ h havoid', getField_setField_ne _ _ _ _ hsnake]

/-- The numeric serializer only ever succeeds with a numeric value. -/
theorem serializeNumber_ok (s : String) (v : Value)
    (h : serializeNumber s = .ok v) : ∃ q, v = .num q := by
  unfold serializeNumber at h
  cases hp : parseDecimal (stripNonNumeric s) with
  | none =>
    rw [hp] at h
    exact Except.noConfusion h
  | some q =>
    rw [hp] at h
    injection h with h'
    exact ⟨q, h'.symm⟩

/-- Every successfully extracted record carries the `name` property, equal
to the variant's display name (recovered by value-lookup in the socket
table), a space, and the item title. -/
theorem extractItem_name (cfg : ScraperConfig) (reg : Registry) (m : SMap)
    (endpoint socketUrl : String) (item : Item) (part : Part)
    (hname : specsAvoid m endpoint "name" item.specs = true)
    (hok : extractItem cfg reg m endpoint socketUrl item = .ok part) :
    getField part "name" =
      some (some (.str (socketNameOf cfg socketUrl ++ " " ++ item.title))) := by
  simp only [extractItem] at hok
  have hne : "price" ≠ "name" := by decide
  cases hpt : item.priceText with
  | none =>
    simp only [hpt] at hok
    rw [getField_extractSpecs reg m endpoint "name" item.specs _ part hok hname,
      getField_setField_ne _ _ _ _ hne, getField_setField_self]
  | some t =>
    simp only [hpt] at hok
    by_cases hte : jsTrim t = ""
    · rw [if_pos hte] at hok
      rw [getField_extractSpecs reg m endpoint "name" item.specs _ part hok hname,
        getField_setField_ne _ _ _ _ hne, getField_setField_self]
    · rw [if_neg hte] at hok
      cases hsn : serializeNumber t with
      | error e =>
        rw [hsn] at hok
        exact Except.noConfusion hok
      | ok v =>
        rw [hsn] at hok
        rw [getField_extractSpecs reg m endpoint "name" item.specs _ part hok hname,
          getField_setField_ne _ _ _ _ hne, getField_setField_self]

/-- Every successfully extracted record carries the `price` property: `null`
exactly when the raw price text was `null`/empty/whitespace, and otherwise
the numeric value returned by the numeric serializer on the raw text. -/
theorem extractItem_price (cfg : ScraperConfig) (reg : Registry) (m : SMap)
    (endpoint socketUrl : String) (item : Item) (part : Part)
    (hprice : specsAvoid m endpoint "price" item.specs = true)
    (hok : extractItem cfg reg m endpoint socketUrl item = .ok part) :
    (priceTextEmpty item.priceText = true ∧ getField part "price" = some none)
    ∨ (∃ t q, item.priceText = some t ∧ jsTrim t ≠ ""
        ∧ serializeNumber t = .ok (.num q)
        ∧ getField part "price" = some (some (.num q))) := by
  simp only [extractItem] at hok
  cases hpt : item.priceText with
  | none =>
    simp only [hpt] at hok
    left
    refine ⟨rfl, ?_⟩
    rw [getField_extractSpecs reg m endpoint "price" item.specs _ part hok hprice,
      getField_setField_self]
  | some t =>
    simp only [hpt] at hok
    by_cases hte : jsTrim t = ""
    · rw [if_pos hte] at hok
      left
      refine ⟨by simp [priceTextEmpty, hte], ?_⟩
      rw [getField_extractSpecs reg m endpoint "price" item.specs _ part hok hprice,
        getField_setField_self]
    · rw [if_neg hte] at hok
      cases hsn : serializeNumber t with
      | error e =>
        rw [hsn] at hok
        exact Except.noConfusion hok
      | ok v =>
        rw [hsn] at hok
        obtain ⟨q, rfl⟩ := serializeNumber_ok t v hsn
        right
        refine ⟨t, q, rfl, hte, hsn, ?_⟩
        rw [getField_extractSpecs reg m endpoint "price" item.specs _ part hok hprice,
          getField_setField_self]

/-! ## Traversal lemmas -/

/-- If extraction succeeds on every page of the window `[cur, cur + k)`, the
page loop yields one batch per page in ascending page order and re-navigates
exactly to the `pageUrl`s of the pages after page 1, in order. -/
theorem scrapePagesAux_ok (cfg : ScraperConfig) (reg : Registry) (m : SMap)
    (site : Site) (endpoint socketUrl : String) (B : Nat → List Part) :
    ∀ (k cur : Nat),
      (∀ p, cur ≤ p → p < cur + k →
        extractItems cfg reg m endpoint socketUrl
          (site.items (if 1 < p then cfg.pageUrl endpoint socketUrl p
                       else fullUrl endpoint socketUrl)) = .ok (B p)) →
      scrapePagesAux cfg reg m site endpoint socketUrl k cur =
        ⟨(List.range' cur k).map B,
         ((List.range' cur k).filter (fun p => decide (1 < p))).map
           (cfg.pageUrl endpoint socketUrl),
         none⟩ := by
  intro k
  induction k with
  | zero =>
    intro cur _
    simp [scrapePagesAux, List.range']
  | succ k ih =>
    intro cur h
    have hcur := h cur (le_refl _) (by omega)
    have hrest := ih (cur + 1) (fun p h1 h2 => h p (by omega) (by omega))
    simp only [scrapePagesAux, hcur, hrest]
    by_cases h1 : 1 < cur
    · simp [List.range', List.filter_cons, h1]
    · simp [List.range', List.filter_cons, h1]

/-- If extraction succeeds on every page of the window `[cur, cur + k)` and
fails on page `cur + k`, the page loop yields exactly the batches of the
fully-processed pages — the failing page contributes no records — and stops
with that error. -/
theorem scrapePagesAux_err (cfg : ScraperConfig) (reg : Registry) (m : SMap)
    (site : Site) (endpoint socketUrl : String) (B : Nat → List Part)
    (err : ScrapeError) :
    ∀ (k cur : Nat),
      (∀ p, cur ≤ p → p < cur + k →
        extractItems cfg reg m endpoint socketUrl
          (site.items (if 1 < p then cfg.pageUrl endpoint socketUrl p
                       else fullUrl endpoint socketUrl)) = .ok (B p)) →
      extractItems cfg reg m endpoint socketUrl
        (site.items (if 1 < cur + k then cfg.pageUrl endpoint socketUrl (cur + k)
                     else fullUrl endpoint socketUrl)) = .error err →
      scrapePagesAux cfg reg m site endpoint socketUrl (k + 1) cur =
        ⟨(List.range' cur k).map B,
         ((List.range' cur k).filter (fun p => decide (1 < p))).map
             (cfg.pageUrl endpoint socketUrl)
           ++ (if 1 < cur + k then [cfg.pageUrl endpoint socketUrl (cur + k)]
               else []),
         some err⟩ := by
  intro k
  induction k with
  | zero =>
    intro cur h herr
    rw [Nat.add_zero] at herr
    simp only [scrapePagesAux, herr, List.range']
    by_cases h1 : 1 < cur
    · simp [h1]
    · simp [h1]
  | succ k ih =>
    intro cur h herr
    have hcur := h cur (le_refl _) (by omega)
    rw [show cur + (k + 1) = cur + 1 + k from by omega] at herr
    rw [show cur + (k + 1) = cur + 1 + k from by omega]
    have hrest := ih (cur + 1) (fun p h1 h2 => h p (by omega) (by omega)) herr
    conv_lhs => rw [scrapePagesAux]
    simp only [hcur, hrest]
    by_cases h1 : 1 < cur
    · simp [List.range', List.filter_cons, h1]
    · simp [List.range', List.filter_cons, h1]

/-- If the pagination control is readable for every variant of the table and
extraction succeeds on every page, the variant loop visits the variants in
declared table order, yields the page batches of each variant in ascending
page order, navigates to each variant's filtered first-page URL and then to
its later pages' URLs, and raises no error. -/
theorem scrapeVariants_ok (cfg : ScraperConfig) (reg : Registry) (m : SMap)
    (site : Site) (endpoint : String) (np : String × String → Nat)
    (B : String × String → Nat → List Part) :
    ∀ tbl : List (String × String),
      (∀ v ∈ tbl, site.pagination (fullUrl endpoint v.2) = some (np v)) →
      (∀ v ∈ tbl, ∀ p, 1 ≤ p → p ≤ np v →
        extractItems cfg reg m endpoint v.2
          (site.items (if 1 < p then cfg.pageUrl endpoint v.2 p
                       else fullUrl endpoint v.2)) = .ok (B v p)) →
      scrapeVariants cfg reg m site endpoint tbl =
        ⟨tbl.flatMap (fun v => (List.range' 1 (np v)).map (B v)),
         tbl.flatMap (fun v =>
           fullUrl endpoint v.2 ::
             ((List.range' 1 (np v)).filter (fun p => decide (1 < p))).map
               (cfg.pageUrl endpoint v.2)),
         none⟩ := by
  intro tbl
  induction tbl with
  | nil =>
    intro _ _
    simp [scrapeVariants]
  | cons v rest ih =>
    obtain ⟨nm, u⟩ := v
    intro h1 h2
    have hpag := h1 (nm, u) (by simp)
    have hpages :=
      scrapePagesAux_ok cfg reg m site endpoint u (B (nm, u)) (np (nm, u)) 1
        (fun p hp1 hp2 => h2 (nm, u) (by simp) p hp1 (by omega))
    have hrest := ih (fun v hv => h1 v (by simp [hv]))
      (fun v hv => h2 v (by simp [hv]))
    simp only [scrapeVariants, hpag, scrapePages, Nat.add_sub_cancel, hpages,
      hrest]
    simp

/-! ## Claims -/

/-- Claim C2: the two near-duplicate `scrape` implementations build the
`currentPage > 1` re-navigation URL differently — the Motherboard file keeps
the variant filter fragment (navigating to the variant's filtered URL with
`&page=N` appended) while the unnamed file drops it (navigating to
`…/{endpoint}/#page=N`, the same URL for every variant) — so for every page
after the first they navigate to different URLs for the same
(category, variant, page) triple. -/
theorem pageUrlDivergence :
    (∀ endpoint socketUrl n,
      Motherboard.pageUrl endpoint socketUrl n =
        fullUrl endpoint socketUrl ++ "&page=" ++ toString n)
    ∧ (∀ endpoint socketUrl socketUrl' n,
        Unnamed.pageUrl endpoint socketUrl n =
          Unnamed.pageUrl endpoint socketUrl' n)
    ∧ ∀ endpoint socketUrl n, 1 < n →
        Motherboard.pageUrl endpoint socketUrl n ≠
          Unnamed.pageUrl endpoint socketUrl n := by
  refine ⟨fun _ _ _ => rfl, fun _ _ _ _ => rfl, ?_⟩
  intro e u n _ h
  have hd := congrArg String.data h
  simp only [Motherboard.pageUrl, Unnamed.pageUrl, String.data_append,
    List.append_assoc] at hd
  have h1 := List.append_cancel_left hd
  have h2 := List.append_cancel_left h1
  have h3 := List.append_cancel_left h2
  have hlen := congrArg List.length h3
  simp only [List.length_append] at hlen
  rw [show ("/".data : List Char).length = 1 from rfl,
    show ("&page=".data : List Char).length = 6 from rfl,
    show ("/#page=".data : List Char).length = 7 from rfl] at hlen
  have hu : u.data = [] := List.length_eq_zero.mp (by omega)
  rw [hu] at h3
  simp only [List.nil_append] at h3
  have h4 : ('/' : Char) :: '&' :: ("page=".data ++ (toString n).data) =
      '/' :: '#' :: ("page=".data ++ (toString n).data) := h3
  injection h4 with _ h5
  injection h5 with h6 _
  exact absurd h6 (by decide)

/-- Witness for C2 at (`memory`, `#mt=ddr4`, page 2). -/
theorem pageUrlDivergence_witness :
    Motherboard.pageUrl "memory" "#mt=ddr4" 2 ≠
      Unnamed.pageUrl "memory" "#mt=ddr4" 2 :=
  pageUrlDivergence.2.2 "memory" "#mt=ddr4" 2 (by norm_num)

/-- Claim C4: for every extracted item (item whose extraction produced a
record), the record's `price` field is null exactly when the raw price text
is null, empty, or whitespace-only, and otherwise equals the numeric value
produced by the generic numeric serializer on the raw text. -/
theorem priceNullIffEmpty (cfg : ScraperConfig) (reg : Registry) (m : SMap)
    (endpoint socketUrl : String) (item : Item) (part : Part)
    (hspecs : specsAvoid m endpoint "price" item.specs = true)
    (hok : extractItem cfg reg m endpoint socketUrl item = .ok part) :
    (getField part "price" = some none ↔ priceTextEmpty item.priceText = true)
    ∧ ∀ t, item.priceText = some t → jsTrim t ≠ "" →
        ∃ q, serializeNumber t = .ok (.num q)
          ∧ getField part "price" = some (some (.num q)) := by
  rcases extractItem_price cfg reg m endpoint socketUrl item part hspecs hok with
    ⟨hempty, hget⟩ | ⟨t, q, hpt, hne, hsn, hget⟩
  · refine ⟨by simp [hget, hempty], ?_⟩
    intro t ht hnet
    rw [ht] at hempty
    simp only [priceTextEmpty, beq_iff_eq] at hempty
    exact absurd hempty hnet
  · constructor
    · rw [hget, hpt]
      simp [priceTextEmpty, hne]
    · intro t' ht' _
      rw [hpt] at ht'
      injection ht' with ht''
      subst ht''
      exact ⟨q, hsn, hget⟩

/-- Witness for C4: extracting a row priced `"$129.99"` yields a record
whose `price` is the number `129.99`, not null. -/
theorem priceNullIffEmpty_witness :
    (getField partAlpha129 "price" = some none ↔
      priceTextEmpty (some "$129.99") = true)
    ∧ serializeNumber "$129.99" = .ok (.num (mkRat 12999 100))
    ∧ getField partAlpha129 "price" = some (some (.num (mkRat 12999 100))) := by
  have h := priceNullIffEmpty Motherboard.config regNone mEmpty "memory"
    "#mt=ddr2" ⟨"Alpha", some "$129.99", []⟩ partAlpha129 (by decide) (by decide)
  obtain ⟨q, hsn, hget⟩ := h.2 "$129.99" rfl (by decide)
  have hq : q = mkRat 12999 100 := by
    have hev : serializeNumber "$129.99" = .ok (.num (mkRat 12999 100)) := by
      decide
    rw [hev] at hsn
    injection hsn with h'
    injection h' with h''
    exact h''.symm
  subst hq
  exact ⟨h.1, hsn, hget⟩

/-- Claim C5: a spec cell whose raw value text trims to the empty string is
stored as a null field, and no serializer — generic or custom — is invoked:
the step's outcome does not depend on the registry at all. -/
theorem emptySpecValueNull (reg reg' : Registry) (m : SMap)
    (endpoint : String) (p : Part) (spec : Spec) (rest : List Spec)
    (snake ty : String) (t : List (String × (String × String)))
    (hm : lookupTable m endpoint = some t)
    (hl : lookupTable t (jsTrim spec.label) = some (snake, ty))
    (hempty : jsTrim spec.value = "") :
    extractSpecs reg m endpoint p (spec :: rest) =
      extractSpecs reg m endpoint (setField p snake none) rest
    ∧ extractSpecs reg m endpoint p [spec] = .ok (setField p snake none)
    ∧ extractSpecs reg m endpoint p [spec] = extractSpecs reg' m endpoint p [spec]
    ∧ getField (setField p snake none) snake = some none := by
  have h1 : ∀ (r : Registry) (rs : List Spec),
      extractSpecs r m endpoint p (spec :: rs) =
        extractSpecs r m endpoint (setField p snake none) rs := by
    intro r rs
    simp only [extractSpecs, hm, hl]
    rw [if_pos hempty]
  refine ⟨h1 reg rest, ?_, ?_, getField_setField_self _ _ _⟩
  · rw [h1 reg []]
    rfl
  · rw [h1 reg [], h1 reg' []]
    rfl

/-- Witness for C5: a whitespace-only `Color` value stores null under both a
rejecting and an accepting registry. -/
theorem emptySpecValueNull_witness :
    extractSpecs regNone mColor "memory" [] [⟨" Color ", "   "⟩] =
      .ok (setField [] "color" none)
    ∧ extractSpecs regNone mColor "memory" [] [⟨" Color ", "   "⟩] =
      extractSpecs regAll mColor "memory" [] [⟨" Color ", "   "⟩]
    ∧ getField (setField [] "color" none) "color" = some none := by
  have h := emptySpecValueNull regNone regAll mColor "memory" []
    ⟨" Color ", "   "⟩ [] "color" "text" [("Color", ("color", "text"))]
    (by decide) (by decide) (by decide)
  exact ⟨h.2.1, h.2.2.1, h.2.2.2⟩

/-- Counterexample to C1 as stated: on a category whose first page holds
three rows, the third of which raises `MalformedValue`, the first two rows
are each fully extractable, yet the emitted Category Result is empty — not
"exactly the first 2 items of the first batch".  The generator only yields a
page's batch after the whole page loop finishes, so a mid-page failure
discards the partially built `pageProducts`. -/
theorem midPageFailureDropsBatch_cex :
    scrapeInParallel Motherboard.config regNone mEmpty siteTrunc ["memory"] =
      [⟨"memory", [], some (.malformedValue "abc")⟩]
    ∧ extractItem Motherboard.config regNone mEmpty "memory" "#mt=ddr2"
        itemAlpha = .ok partAlpha
    ∧ extractItem Motherboard.config regNone mEmpty "memory" "#mt=ddr2"
        itemBeta = .ok partBeta
    ∧ ([] : List Part) ≠ [partAlpha, partBeta] := by
  decide

/-- Claim C1 as amended: when a category's traversal raises a fatal error,
the orchestrator catches it at the category boundary and still emits exactly
the page batches that were fully yielded before the failure — truncation is
at page granularity, the page on which the error occurs contributing no
records — while another category completes normally and the run terminates
with one output per category.  Shown on a run of two categories sharing a
single-variant table: A's single clean page is emitted in full; B's clean
first page is emitted and its failing second page is dropped, with the
failure recorded against B. -/
theorem pageGranularEmission (cfg : ScraperConfig) (reg : Registry)
    (m : SMap) (site : Site) (eA eB nm u : String) (BA B1 : List Part)
    (err : ScrapeError)
    (htbl : cfg.table = [(nm, u)])
    (hpA : site.pagination (fullUrl eA u) = some 1)
    (hxA : extractItems cfg reg m eA u (site.items (fullUrl eA u)) = .ok BA)
    (hpB : site.pagination (fullUrl eB u) = some 2)
    (hxB1 : extractItems cfg reg m eB u (site.items (fullUrl eB u)) = .ok B1)
    (hxB2 : extractItems cfg reg m eB u (site.items (cfg.pageUrl eB u 2)) =
      .error err) :
    scrapeInParallel cfg reg m site [eA, eB] =
      [⟨eA, BA, none⟩, ⟨eB, B1, some err⟩] := by
  have hpagesA : scrapePagesAux cfg reg m site eA u 1 1 = ⟨[BA], [], none⟩ := by
    have h := scrapePagesAux_ok cfg reg m site eA u (fun _ => BA) 1 1
      (fun p h1 h2 => by
        have hp : p = 1 := by omega
        subst hp
        simpa using hxA)
    simpa using h
  have hpagesB : scrapePagesAux cfg reg m site eB u 2 1 =
      ⟨[B1], [cfg.pageUrl eB u 2], some err⟩ := by
    have h := scrapePagesAux_err cfg reg m site eB u (fun _ => B1) err 1 1
      (fun p h1 h2 => by
        have hp : p = 1 := by omega
        subst hp
        simpa using hxB1)
      (by simpa using hxB2)
    simpa using h
  have hA : scrape cfg reg m site eA = ⟨[BA], [fullUrl eA u], none⟩ := by
    unfold scrape
    rw [htbl]
    simp only [scrapeVariants, hpA, scrapePages]
    simp only [show (1 + 1 - 1 : Nat) = 1 from rfl]
    rw [hpagesA]
    simp [scrapeVariants]
  have hB : scrape cfg reg m site eB =
      ⟨[B1], [fullUrl eB u, cfg.pageUrl eB u 2], some err⟩ := by
    unfold scrape
    rw [htbl]
    simp only [scrapeVariants, hpB, scrapePages]
    simp only [show (2 + 1 - 1 : Nat) = 2 from rfl]
    rw [hpagesB]
  simp [scrapeInParallel, runTask, hA, hB]

/-- Witness for the amended C1: category `cpu` completes (one record),
category `memory` loses its failing second page but keeps its first. -/
theorem pageGranularEmission_witness :
    scrapeInParallel cfgOneVar regNone mEmpty siteAB ["cpu", "memory"] =
      [⟨"cpu", [partA1], none⟩,
       ⟨"memory", [partB1], some (.malformedValue "x")⟩] :=
  pageGranularEmission cfgOneVar regNone mEmpty siteAB "cpu" "memory" "V" "u"
    [partA1] [partB1] (.malformedValue "x") rfl (by decide) (by decide)
    (by decide) (by decide) (by decide)

/-- Counterexample to C3 as stated: with the `memory → Foo → (foo, custom)`
mapping and no registered custom serializer for `(memory, foo)`, the run is
not stopped at startup — the traversal starts, fully extracts and emits the
first page's record, and only when the second page's row carries the `Foo`
label does the unregistered pair surface, as a runtime error of that
category.  Were the configuration validated eagerly before traversal, no
record could have been produced. -/
theorem unregisteredCustomMidCrawl_cex :
    scrapeInParallel Motherboard.config regNone mCustom siteCustom ["memory"] =
      [⟨"memory", [partAlpha],
        some (.unregisteredCustomSerializer "memory" "foo")⟩]
    ∧ ([partAlpha] : List Part) ≠ [] := by
  decide

/-- Claim C3 as amended: no startup validation of custom serializers exists;
a field marked `custom` with no registered function for the (category, field)
pair fails at the moment an item carrying that field with a non-empty value
is serialized — a per-item runtime failure, fatal to that category's
traversal only, while the run still produces one output per requested
category. -/
theorem unregisteredCustomRuntimeFailure (reg : Registry) (m : SMap)
    (endpoint snake : String) (t : List (String × (String × String)))
    (spec : Spec) (p : Part) (rest : List Spec)
    (hm : lookupTable m endpoint = some t)
    (hl : lookupTable t (jsTrim spec.label) = some (snake, "custom"))
    (hne : jsTrim spec.value ≠ "")
    (hreg : reg.customSerializers endpoint snake = none) :
    extractSpecs reg m endpoint p (spec :: rest) =
      .error (.unregisteredCustomSerializer endpoint snake)
    ∧ ∀ (cfg : ScraperConfig) (site : Site) (endpoints : List String),
        (scrapeInParallel cfg reg m site endpoints).map TaskOutput.endpoint =
          endpoints := by
  constructor
  · simp only [extractSpecs, hm, hl]
    rw [if_neg hne]
    simp only [if_true, hreg]
  · intro cfg site endpoints
    unfold scrapeInParallel
    rw [List.map_map,
      show (TaskOutput.endpoint ∘ runTask cfg reg m site) = id from rfl,
      List.map_id]

/-- Witness for the amended C3 at the `(memory, foo)` pair. -/
theorem unregisteredCustomRuntimeFailure_witness :
    extractSpecs regNone mCustom "memory" [] [⟨"Foo", "bar"⟩] =
      .error (.unregisteredCustomSerializer "memory" "foo")
    ∧ (scrapeInParallel Motherboard.config regNone mCustom siteCustom
        ["memory"]).map TaskOutput.endpoint = ["memory"] := by
  have h := unregisteredCustomRuntimeFailure regNone mCustom "memory" "foo"
    [("Foo", ("foo", "custom"))] ⟨"Foo", "bar"⟩ [] [] (by decide) (by decide)
    (by decide) rfl
  exact ⟨h.1, h.2 Motherboard.config siteCustom ["memory"]⟩

/-- Claim C6: a spec label is trimmed and then looked up case-sensitively in
the category's table; a missing entry raises `UnmappedLabel` for the trimmed
label, which aborts the current item, the remaining items, and the current
category's traversal at its first page, while the run still produces an
output for every requested category.  The conjuncts state: (1) the lookup
key is the trimmed label and a miss is the `UnmappedLabel` error regardless
of the remaining specs; (2) a hit returns the value stored under the
byte-for-byte identical key; (3) a key matching no table entry exactly —
e.g. one differing only in case — misses; (4) an item-level error aborts the
page regardless of the remaining items; (5) an extraction error on the first
page of the first variant ends the category's traversal with no batches and
no further navigation; (6) every requested category still yields exactly its
output slot. -/
theorem unmappedLabelPolicy :
    (∀ (reg : Registry) (m : SMap) (endpoint : String)
        (t : List (String × (String × String))) (p : Part) (spec : Spec)
        (rest : List Spec),
      lookupTable m endpoint = some t →
      lookupTable t (jsTrim spec.label) = none →
      extractSpecs reg m endpoint p (spec :: rest) =
        .error (.unmappedLabel (jsTrim spec.label)))
    ∧ (∀ (t : List (String × (String × String))) (key : String)
        (v : String × String),
        lookupTable t key = some v → (key, v) ∈ t)
    ∧ (∀ (t : List (String × (String × String))) (key : String),
        (∀ pr ∈ t, pr.1 ≠ key) → lookupTable t key = none)
    ∧ (∀ (cfg : ScraperConfig) (reg : Registry) (m : SMap)
        (endpoint socketUrl : String) (item : Item) (rest : List Item)
        (e : ScrapeError),
      extractItem cfg reg m endpoint socketUrl item = .error e →
      extractItems cfg reg m endpoint socketUrl (item :: rest) = .error e)
    ∧ (∀ (cfg : ScraperConfig) (reg : Registry) (m : SMap) (site : Site)
        (endpoint nm u : String) (restVars : List (String × String))
        (n : Nat) (err : ScrapeError),
      site.pagination (fullUrl endpoint u) = some n → 1 ≤ n →
      extractItems cfg reg m endpoint u (site.items (fullUrl endpoint u)) =
        .error err →
      scrapeVariants cfg reg m site endpoint ((nm, u) :: restVars) =
        ⟨[], [fullUrl endpoint u], some err⟩)
    ∧ ∀ (cfg : ScraperConfig) (reg : Registry) (m : SMap) (site : Site)
        (endpoints : List String),
      (scrapeInParallel cfg reg m site endpoints).map TaskOutput.endpoint =
        endpoints := by
  refine ⟨?_, ?_, ?_, ?_, ?_, ?_⟩
  · intro reg m endpoint t p spec rest hm hl
    simp only [extractSpecs, hm, hl]
  · intro t key v h
    exact lookupTable_mem t key v h
  · intro t key h
    exact lookupTable_eq_none t key h
  · intro cfg reg m endpoint socketUrl item rest e h
    simp only [extractItems, h]
  · intro cfg reg m site endpoint nm u restVars n err hpag hn hx
    obtain ⟨k, rfl⟩ : ∃ k, n = k + 1 := ⟨n - 1, by omega⟩
    have hp : scrapePagesAux cfg reg m site endpoint u (k + 1) 1 =
        ⟨[], [], some err⟩ := by
      conv_lhs => rw [scrapePagesAux]
      simp [hx]
    simp only [scrapeVariants, hpag, scrapePages, Nat.add_sub_cancel, hp]
  · intro cfg reg m site endpoints
    unfold scrapeInParallel
    rw [List.map_map,
      show (TaskOutput.endpoint ∘ runTask cfg reg m site) = id from rfl,
      List.map_id]

/-- Witness for C6: the rendered label `" chipset "` is trimmed to
`"chipset"`, which misses the table whose only key is `"Chipset"`; the
category dies on its first page with `UnmappedLabel "chipset"` and the run
still writes its output slot. -/
theorem unmappedLabelPolicy_witness :
    extractSpecs regNone mChipset "memory" [] [⟨" chipset ", "X570"⟩] =
      .error (.unmappedLabel "chipset")
    ∧ ("Chipset", ("chipset", "text")) ∈ [("Chipset", ("chipset", "text"))]
    ∧ lookupTable [("Chipset", ("chipset", "text"))] "chipset" = none
    ∧ scrapeVariants Motherboard.config regNone mChipset siteChipset "memory"
        (("DDR2", "#mt=ddr2") :: [("DDR3", "#mt=ddr3"), ("DDR4", "#mt=ddr4"),
          ("DDR5", "#mt=ddr5")]) =
      ⟨[], [fullUrl "memory" "#mt=ddr2"], some (.unmappedLabel "chipset")⟩
    ∧ (scrapeInParallel Motherboard.config regNone mChipset siteChipset
        ["cpu", "memory"]).map TaskOutput.endpoint = ["cpu", "memory"] := by
  refine ⟨unmappedLabelPolicy.1 regNone mChipset "memory"
      [("Chipset", ("chipset", "text"))] [] ⟨" chipset ", "X570"⟩ []
      (by decide) (by decide),
    unmappedLabelPolicy.2.1 [("Chipset", ("chipset", "text"))] "Chipset"
      ("chipset", "text") (by decide),
    unmappedLabelPolicy.2.2.1 [("Chipset", ("chipset", "text"))] "chipset"
      (by decide),
    unmappedLabelPolicy.2.2.2.2.1 Motherboard.config regNone mChipset
      siteChipset "memory" "DDR2" "#mt=ddr2"
      [("DDR3", "#mt=ddr3"), ("DDR4", "#mt=ddr4"), ("DDR5", "#mt=ddr5")] 1
      (.unmappedLabel "chipset") (by decide) (by decide) (by decide),
    unmappedLabelPolicy.2.2.2.2.2 Motherboard.config regNone mChipset
      siteChipset ["cpu", "memory"]⟩

/-- Claim C7: variants are visited in the table's declared order, pages
within a variant ascend from 1 to `numPages`, batches are yielded in exactly
that order, and the emitted Category Result is the concatenation of the
yielded batches in that order. -/
theorem traversalOrder (cfg : ScraperConfig) (reg : Registry) (m : SMap)
    (site : Site) (endpoint : String) (np : String × String → Nat)
    (B : String × String → Nat → List Part)
    (h1 : ∀ v ∈ cfg.table, site.pagination (fullUrl endpoint v.2) = some (np v))
    (h2 : ∀ v ∈ cfg.table, ∀ p, 1 ≤ p → p ≤ np v →
      extractItems cfg reg m endpoint v.2
        (site.items (if 1 < p then cfg.pageUrl endpoint v.2 p
                     else fullUrl endpoint v.2)) = .ok (B v p)) :
    (scrape cfg reg m site endpoint).batches =
      cfg.table.flatMap (fun v => (List.range' 1 (np v)).map (B v))
    ∧ (scrape cfg reg m site endpoint).err = none
    ∧ (runTask cfg reg m site endpoint).parts =
        (cfg.table.flatMap (fun v => (List.range' 1 (np v)).map (B v))).flatten := by
  have h := scrapeVariants_ok cfg reg m site endpoint np B cfg.table h1 h2
  refine ⟨?_, ?_, ?_⟩ <;> simp [scrape, runTask, h]

/-- Witness for C7 on the spec's 2-variants × 2-pages fixture: the yielded
batch order is [variant1/page1, variant1/page2, variant2/page1,
variant2/page2] and the emitted result is their concatenation. -/
theorem traversalOrder_witness :
    (scrape cfgTwoVar regNone mEmpty siteGrid "memory").batches =
      [batchGrid ("V1", "u1") 1, batchGrid ("V1", "u1") 2,
       batchGrid ("V2", "u2") 1, batchGrid ("V2", "u2") 2]
    ∧ (scrape cfgTwoVar regNone mEmpty siteGrid "memory").err = none
    ∧ (runTask cfgTwoVar regNone mEmpty siteGrid "memory").parts =
        batchGrid ("V1", "u1") 1 ++ batchGrid ("V1", "u1") 2 ++
        batchGrid ("V2", "u2") 1 ++ batchGrid ("V2", "u2") 2 := by
  have h := traversalOrder cfgTwoVar regNone mEmpty siteGrid "memory" npTwo
    batchGrid (by decide)
    (by
      intro v hv p hp1 hp2
      have hp2' : p ≤ 2 := hp2
      have hp : p = 1 ∨ p = 2 := by omega
      fin_cases hv <;> rcases hp with rfl | rfl <;> decide)
  exact ⟨h.1.trans (by decide), h.2.1, h.2.2.trans (by decide)⟩

/-- Claim C8: a run produces exactly one output per requested category,
complete or partial, regardless of whether the traversal succeeded or raised
a fatal condition, and an aborted category's output records its identifier
together with the cause. -/
theorem oneOutputPerCategory (cfg : ScraperConfig) (reg : Registry)
    (m : SMap) (site : Site) (endpoints : List String) (e : String)
    (he : e ∈ endpoints) (hnd : endpoints.Nodup) :
    ((scrapeInParallel cfg reg m site endpoints).filter
        (fun o => o.endpoint == e)).length = 1
    ∧ ∀ o ∈ scrapeInParallel cfg reg m site endpoints, o.endpoint = e →
        o = ⟨e, (scrape cfg reg m site e).batches.flatten,
             (scrape cfg reg m site e).err⟩ := by
  constructor
  · unfold scrapeInParallel
    rw [List.filter_map, List.length_map,
      show ((fun o : TaskOutput => o.endpoint == e) ∘ runTask cfg reg m site) =
        (fun x => x == e) from rfl,
      ← List.countP_eq_length_filter]
    exact List.count_eq_one_of_mem hnd he
  · intro o ho heq
    unfold scrapeInParallel at ho
    obtain ⟨x, hx, rfl⟩ := List.mem_map.mp ho
    have hxe : x = e := heq
    subst hxe
    rfl

/-- Witness for C8: on a site where every pagination read times out, a
two-category run still yields one (partial, error-carrying) output per
category. -/
theorem oneOutputPerCategory_witness :
    ((scrapeInParallel Motherboard.config regNone mEmpty siteDead
        ["cpu", "memory"]).filter (fun o => o.endpoint == "memory")).length = 1
    ∧ scrapeInParallel Motherboard.config regNone mEmpty siteDead
        ["cpu", "memory"] =
      [⟨"cpu", [], some (.paginationUnreadable (fullUrl "cpu" "#mt=ddr2"))⟩,
       ⟨"memory", [],
        some (.paginationUnreadable (fullUrl "memory" "#mt=ddr2"))⟩] := by
  have h := oneOutputPerCategory Motherboard.config regNone mEmpty siteDead
    ["cpu", "memory"] "memory" (by decide) (by decide)
  exact ⟨h.1, by decide⟩

/-- Claim C9: every successfully extracted record contains a `name` field
equal to the current variant's display name, a space, and the item title,
and a `price` field that is numeric or null; the last two conjuncts ground
the display-name recovery in the concrete tables of both files (their values
are injective, so the value-lookup returns the current variant's key). -/
theorem recordNamePrice :
    (∀ (cfg : ScraperConfig) (reg : Registry) (m : SMap)
        (endpoint socketUrl nm : String) (item : Item) (part : Part),
      findKeyByValue cfg.table socketUrl = some nm →
      specsAvoid m endpoint "name" item.specs = true →
      specsAvoid m endpoint "price" item.specs = true →
      extractItem cfg reg m endpoint socketUrl item = .ok part →
      getField part "name" = some (some (.str (nm ++ " " ++ item.title)))
        ∧ ∃ pv, getField part "price" = some pv
            ∧ (pv = none ∨ ∃ q, pv = some (.num q)))
    ∧ (∀ pr ∈ Motherboard.cpuSockets,
        findKeyByValue Motherboard.cpuSockets pr.2 = some pr.1)
    ∧ (∀ pr ∈ Unnamed.cpuSockets,
        findKeyByValue Unnamed.cpuSockets pr.2 = some pr.1) := by
  refine ⟨?_, by decide, by decide⟩
  intro cfg reg m endpoint socketUrl nm item part hk hname hprice hok
  constructor
  · have h := extractItem_name cfg reg m endpoint socketUrl item part hname hok
    rw [h]
    simp [socketNameOf, hk]
  · rcases extractItem_price cfg reg m endpoint socketUrl item part hprice hok
      with ⟨_, hget⟩ | ⟨t, q, _, _, _, hget⟩
    · exact ⟨none, hget, Or.inl rfl⟩
    · exact ⟨some (.num q), hget, Or.inr ⟨q, rfl⟩⟩

/-- Witness for C9: a DDR3-variant row titled `Board X` with whitespace-only
price text yields a record named `DDR3 Board X` with a null price. -/
theorem recordNamePrice_witness :
    getField partBoard "name" = some (some (.str "DDR3 Board X"))
    ∧ ∃ pv, getField partBoard "price" = some pv
        ∧ (pv = none ∨ ∃ q, pv = some (.num q)) :=
  recordNamePrice.1 Motherboard.config regNone mEmpty "memory" "#mt=ddr3"
    "DDR3" itemBoard partBoard (by decide) (by decide) (by decide) (by decide)

/-- Claim C10: `scrape` iterates the one module-level `cpuSockets` table of
its source file, in declared order, whatever category identifier it is
passed: the navigation trace and batch structure are those of the fixed
table for every endpoint, in both files. -/
theorem globalVariantTable :
    (∀ (reg : Registry) (m : SMap) (site : Site) (endpoint : String)
        (np : String × String → Nat) (B : String × String → Nat → List Part),
      (∀ v ∈ Motherboard.cpuSockets,
        site.pagination (fullUrl endpoint v.2) = some (np v)) →
      (∀ v ∈ Motherboard.cpuSockets, ∀ p, 1 ≤ p → p ≤ np v →
        extractItems Motherboard.config reg m endpoint v.2
          (site.items (if 1 < p then Motherboard.pageUrl endpoint v.2 p
                       else fullUrl endpoint v.2)) = .ok (B v p)) →
      scrape Motherboard.config reg m site endpoint =
        ⟨Motherboard.cpuSockets.flatMap
            (fun v => (List.range' 1 (np v)).map (B v)),
         Motherboard.cpuSockets.flatMap
            (fun v => fullUrl endpoint v.2 ::
              ((List.range' 1 (np v)).filter (fun p => decide (1 < p))).map
                (Motherboard.pageUrl endpoint v.2)),
         none⟩)
    ∧ ∀ (reg : Registry) (m : SMap) (site : Site) (endpoint : String)
        (np : String × String → Nat) (B : String × String → Nat → List Part),
      (∀ v ∈ Unnamed.cpuSockets,
        site.pagination (fullUrl endpoint v.2) = some (np v)) →
      (∀ v ∈ Unnamed.cpuSockets, ∀ p, 1 ≤ p → p ≤ np v →
        extractItems Unnamed.config reg m endpoint v.2
          (site.items (if 1 < p then Unnamed.pageUrl endpoint v.2 p
                       else fullUrl endpoint v.2)) = .ok (B v p)) →
      scrape Unnamed.config reg m site endpoint =
        ⟨Unnamed.cpuSockets.flatMap
            (fun v => (List.range' 1 (np v)).map (B v)),
         Unnamed.cpuSockets.flatMap
            (fun v => fullUrl endpoint v.2 ::
              ((List.range' 1 (np v)).filter (fun p => decide (1 < p))).map
                (Unnamed.pageUrl endpoint v.2)),
         none⟩ := by
  constructor
  · intro reg m site endpoint np B h1 h2
    exact scrapeVariants_ok Motherboard.config reg m site endpoint np B
      Motherboard.cpuSockets h1 h2
  · intro reg m site endpoint np B h1 h2
    exact scrapeVariants_ok Unnamed.config reg m site endpoint np B
      Unnamed.cpuSockets h1 h2

/-- Witness for C10 at the unrelated category `keyboard`: the Motherboard
file's traversal navigates once per entry of its four-entry table and the
unnamed file's once per entry of its 25-entry table. -/
theorem globalVariantTable_witness :
    scrape Motherboard.config regNone mEmpty siteOnePage "keyboard" =
      ⟨[[], [], [], []],
       [fullUrl "keyboard" "#mt=ddr2", fullUrl "keyboard" "#mt=ddr3",
        fullUrl "keyboard" "#mt=ddr4", fullUrl "keyboard" "#mt=ddr5"],
       none⟩
    ∧ scrape Unnamed.config regNone mEmpty siteOnePage "keyboard" =
      ⟨List.replicate 25 [],
       Unnamed.cpuSockets.map (fun v => fullUrl "keyboard" v.2),
       none⟩ := by
  have hm := globalVariantTable.1 regNone mEmpty siteOnePage "keyboard"
    (fun _ => 1) (fun _ _ => [])
    (by intro v hv; rfl)
    (by
      intro v hv p hp1 hp2
      have hp : p = 1 := le_antisymm hp2 hp1
      subst hp
      rfl)
  have hu := globalVariantTable.2 regNone mEmpty siteOnePage "keyboard"
    (fun _ => 1) (fun _ _ => [])
    (by intro v hv; rfl)
    (by
      intro v hv p hp1 hp2
      have hp : p = 1 := le_antisymm hp2 hp1
      subst hp
      rfl)
  exact ⟨hm.trans (by decide), hu.trans (by decide)⟩

end Scraper
